import Mathlib

/-!
Formal model of `src/executor.mjs`: a single-file trading script that reads its
configuration from environment variables, and then runs an infinite loop in
which each iteration optionally resets a daily counter, checks a daily trade
cap, performs one swap through an external quote/build/sign/send/confirm call
chain, and posts notifications.  External effects (HTTP requests, RPC calls,
console output, sleeping) are modelled by an oracle describing the outcome of
each external call and by a trace of events emitted by one loop iteration.
-/

namespace Executor

/-- A UTC calendar date as observed by the loop.  The source reads only
`getUTCDate()` (the day of the month) from the current date. -/
structure UtcDate where
  year : Nat
  month : Nat
  day : Nat
  deriving DecidableEq, Repr

/-- Models `new Date(...).getUTCDate()`: the day of the month (1-31). -/
def getUTCDate (d : UtcDate) : Nat := d.day

/-- The raw process environment, line 12-23 of executor.mjs: each variable is
either unset (`none`) or a string. -/
structure Env where
  RPC_URL : Option String
  PRIVATE_KEY_B58 : Option String
  TOKEN_MINT : Option String
  QUOTE_MINT : Option String
  SIDE : Option String
  AMOUNT_IN_BASE_UNITS : Option String
  MAX_SLIPPAGE_BPS : Option String
  INTERVAL_SECONDS : Option String
  DAILY_BUDGET_TRADES : Option String
  DISCORD_WEBHOOK_URL : Option String
  deriving DecidableEq, Repr

/-- JS truthiness test used by `!RPC_URL || ...` (line 25) and
`!DISCORD_WEBHOOK_URL` (line 40) on an optional string environment variable:
`undefined` and the empty string are falsy, every other string is truthy. -/
def falsy : Option String → Bool
  | none => true
  | some str => str == ""

/-- Helper for the model of the JS `Number()` coercion: the value of a
nonempty string of decimal digits, `none` when a non-digit occurs. -/
def digitsToNat : List Char → Option Nat
  | [] => none
  | l =>
    l.foldl
      (fun acc c =>
        acc.bind (fun n => if c.isDigit then some (n * 10 + (c.toNat - 48)) else none))
      (some 0)

/-- Models the JS `Number()` coercion on an optional environment-variable
string, restricted to optional-sign decimal integers (the documented format of
these variables): `Number(undefined)` and non-numeric strings give NaN
(`none`), the empty string gives `0`, and a decimal integer string with an
optional leading sign gives its value. -/
def jsNumber : Option String → Option Int
  | none => none
  | some str =>
    if str = "" then some 0
    else
      match str.data with
      | '-' :: rest => (digitsToNat rest).map (fun n => -(n : Int))
      | '+' :: rest => (digitsToNat rest).map (fun n => (n : Int))
      | l => (digitsToNat l).map (fun n => (n : Int))

/-- Models `Number(v ?? dflt)` for the two numeric knobs INTERVAL_SECONDS and
DAILY_BUDGET_TRADES, on the domain where the variable, when set, is a
nonnegative decimal integer; values outside that domain (which make the JS
expression NaN or negative) are outside the model and mapped to the default. -/
def natOfEnv (v : Option String) (dflt : Nat) : Nat :=
  match v with
  | none => dflt
  | some str =>
    match jsNumber (some str) with
    | some n => if 0 ≤ n then n.toNat else dflt
    | none => dflt

/-- The module-level program state of executor.mjs: the configuration decoded
from the environment at startup (lines 12-35, never reassigned) together with
the two mutable counters `tradesToday` and `lastDay` (lines 94-95).
`dailyBudget` holds `Number(DAILY_BUDGET_TRADES ?? 100)` and `intervalSeconds`
holds `Number(INTERVAL_SECONDS ?? 1200)`, both as natural numbers. -/
structure ProgState where
  rpcUrl : String
  privateKeyB58 : String
  tokenMint : String
  quoteMint : String
  side : String
  amountInBaseUnits : Option String
  maxSlippageBps : Option String
  dailyBudget : Nat
  intervalSeconds : Nat
  discordWebhookUrl : Option String
  tradesToday : Nat
  lastDay : Nat
  deriving DecidableEq, Repr

/-- Line 34: `const INPUT = SIDE === 'sell' ? TOKEN : QUOTE;`. -/
def INPUT (s : ProgState) : String :=
  if s.side = "sell" then s.tokenMint else s.quoteMint

/-- Line 35: `const OUTPUT = SIDE === 'sell' ? QUOTE : TOKEN;`. -/
def OUTPUT (s : ProgState) : String :=
  if s.side = "sell" then s.quoteMint else s.tokenMint

/-- Line 61: `String(MAX_SLIPPAGE_BPS ?? 50)` used as the slippage query
parameter of the quote request. -/
def slippageStr (s : ProgState) : String := s.maxSlippageBps.getD "50"

/-- Outcomes of the external calls a single `swapOnce` invocation can make:
the quote HTTP request (its `ok` flag, its `statusText` and the optional first
route of the response body), the swap-build HTTP request, the deserialization
of the returned transaction, `connection.sendTransaction` and
`connection.confirmTransaction` (each of which either returns or throws). -/
structure Oracle where
  quoteOk : Bool
  quoteStatusText : String
  quoteRoute : Option String
  swapBuildOk : Bool
  swapStatusText : String
  deserializeResult : Except String Unit
  sendResult : Except String String
  confirmResult : Except String Unit
  deriving Repr

/-- Observable events of one loop iteration: the external requests issued by
`swapOnce` (in program order), webhook notifications, console output and the
inter-iteration sleep.  `quoteReq` records the input mint, output mint, amount
and slippage sent as query parameters (lines 57-62). -/
inductive Event where
  | quoteReq : String → String → Int → String → Event
  | swapReq : Event
  | signTx : Event
  | sendTx : Event
  | confirmTx : Event
  | notify : String → Event
  | logOk : String → Event
  | logError : String → Event
  | sleepMs : Nat → Event
  deriving DecidableEq, Repr

/-- True exactly for the `console.log` event of a successful swap. -/
def Event.isLogOk : Event → Bool
  | Event.logOk _ => true
  | _ => false

/-- True exactly for the console events produced at the end of the swap
branch of the loop body (success log or caught-error log); a loop iteration
emits one of them iff it actually attempted the swap. -/
def Event.isAttemptMark : Event → Bool
  | Event.logOk _ => true
  | Event.logError _ => true
  | _ => false

/-- True exactly for the inter-iteration sleep event. -/
def Event.isSleep : Event → Bool
  | Event.sleepMs _ => true
  | _ => false

/-- The value returned by a successful `swapOnce` (line 91). -/
structure SwapResult where
  sig : String
  inMint : String
  outMint : String
  amount : Int
  deriving DecidableEq, Repr

/-- Error message thrown on line 53. -/
def amountErrorMsg : String :=
  "AMOUNT_IN_BASE_UNITS must be a positive integer (base units)."

/-- The full external call chain of one successful `swapOnce` pass, in
program order: quote request, swap-build request, signing, submission,
confirmation. -/
def fullChain (s : ProgState) (amount : Int) : List Event :=
  [Event.quoteReq (INPUT s) (OUTPUT s) amount (slippageStr s),
   Event.swapReq, Event.signTx, Event.sendTx, Event.confirmTx]

/-- `async function swapOnce()` (lines 50-92), as a function of the program
state and the outcomes of its external calls.  It returns either the thrown
error message or the result record of line 91, together with the trace of
external operations it performed before returning. -/
def swapOnce (s : ProgState) (o : Oracle) : Except String SwapResult × List Event :=
  match jsNumber s.amountInBaseUnits with
  | none => (Except.error amountErrorMsg, [])
  | some amount =>
    if amount ≤ 0 then (Except.error amountErrorMsg, [])
    else
      if o.quoteOk = false then
        (Except.error ("Quote error: " ++ o.quoteStatusText),
         [Event.quoteReq (INPUT s) (OUTPUT s) amount (slippageStr s)])
      else
        match o.quoteRoute with
        | none =>
          (Except.error "No route found (insufficient liquidity?)",
           [Event.quoteReq (INPUT s) (OUTPUT s) amount (slippageStr s)])
        | some _route =>
          if o.swapBuildOk = false then
            (Except.error ("Swap build error: " ++ o.swapStatusText),
             [Event.quoteReq (INPUT s) (OUTPUT s) amount (slippageStr s), Event.swapReq])
          else
            match o.deserializeResult with
            | Except.error e =>
              (Except.error e,
               [Event.quoteReq (INPUT s) (OUTPUT s) amount (slippageStr s), Event.swapReq])
            | Except.ok _ =>
              match o.sendResult with
              | Except.error e =>
                (Except.error e,
                 [Event.quoteReq (INPUT s) (OUTPUT s) amount (slippageStr s),
                  Event.swapReq, Event.signTx, Event.sendTx])
              | Except.ok sig =>
                match o.confirmResult with
                | Except.error e =>
                  (Except.error e,
                   [Event.quoteReq (INPUT s) (OUTPUT s) amount (slippageStr s),
                    Event.swapReq, Event.signTx, Event.sendTx, Event.confirmTx])
                | Except.ok _ =>
                  (Except.ok
                     { sig := sig, inMint := INPUT s, outMint := OUTPUT s, amount := amount },
                   [Event.quoteReq (INPUT s) (OUTPUT s) amount (slippageStr s),
                    Event.swapReq, Event.signTx, Event.sendTx, Event.confirmTx])

/-- `async function discord(msg)` (lines 39-48) as a function of the webhook
configuration and the outcome of the `fetch` call.  The result is an `Except`
so that a propagated exception would be visible; the boolean records whether a
network request was performed.  When the webhook URL is falsy the function
returns immediately without a network call; otherwise any failure of the
request is swallowed by the empty `catch`. -/
def discord (webhookUrl : Option String) (fetchOutcome : Except String Unit) :
    Except String Bool :=
  if falsy webhookUrl then Except.ok false
  else
    match fetchOutcome with
    | Except.ok _ => Except.ok true
    | Except.error _ => Except.ok true

/-- The cap notification of line 105. -/
def limitMsg : String := "⏸ Daily trade limit reached. Waiting for next UTC day."

/-- The success notification of lines 110-112. -/
def successMsg (s : ProgState) (r : SwapResult) : String :=
  "✅ Executed " ++ s.side.toUpper ++ " | inputMint=" ++ r.inMint ++
    " → outputMint=" ++ r.outMint ++ "\n" ++
    "• amount(base units)=" ++ toString r.amount ++ "\n" ++
    "• tx: https://solscan.io/tx/" ++ r.sig

/-- The caught-error notification of line 118. -/
def errorMsg (e : String) : String := "⚠️ Swap error: " ++ e

/-- Lines 100-102: read `getUTCDate()` of the current time and reset the
counter when it differs from the recorded one.  Note the source compares only
the day of the month, not the full calendar date. -/
def dayReset (s : ProgState) (now : UtcDate) : ProgState :=
  if getUTCDate now ≠ s.lastDay then
    { s with lastDay := getUTCDate now, tradesToday := 0 }
  else s

/-- The body of one loop iteration after the day-change reset (lines
104-120): either the cap branch, the swap branch with the counter increment
and success notification, or the catch branch; always followed by the
fixed-interval sleep. -/
def iterBody (s1 : ProgState) (o : Oracle) : ProgState × List Event :=
  if s1.tradesToday ≥ s1.dailyBudget then
    (s1, [Event.notify limitMsg, Event.sleepMs (s1.intervalSeconds * 1000)])
  else
    match swapOnce s1 o with
    | (Except.ok r, tr) =>
      ({ s1 with tradesToday := s1.tradesToday + 1 },
       tr ++ [Event.notify (successMsg s1 r), Event.logOk r.sig,
              Event.sleepMs (s1.intervalSeconds * 1000)])
    | (Except.error e, tr) =>
      (s1, tr ++ [Event.logError e, Event.notify (errorMsg e),
                  Event.sleepMs (s1.intervalSeconds * 1000)])

/-- One full iteration of `async function loop()` (lines 98-121): day-change
reset, then the body, as a function of the current date and the oracle for
this iteration's external calls. -/
def iter (s : ProgState) (now : UtcDate) (o : Oracle) : ProgState × List Event :=
  iterBody (dayReset s now) o

/-- The state after running the loop over a finite list of iteration inputs
(current date and external-call outcomes for each iteration). -/
def runLoop (s : ProgState) : List (UtcDate × Oracle) → ProgState
  | [] => s
  | (d, o) :: rest => runLoop (iter s d o).1 rest

/-- The concatenated event trace of running the loop over a finite list of
iteration inputs. -/
def runTrace (s : ProgState) : List (UtcDate × Oracle) → List Event
  | [] => []
  | (d, o) :: rest => (iter s d o).2 ++ runTrace (iter s d o).1 rest

/-- Whether a given loop iteration executed a successful swap, read off its
event trace (exactly the iterations that log `Swap ok`). -/
def iterSucceeds (s : ProgState) (d : UtcDate) (o : Oracle) : Bool :=
  (iter s d o).2.any Event.isLogOk

/-- The number of successfully executed swaps in a run of the loop. -/
def countSuccesses (s : ProgState) : List (UtcDate × Oracle) → Nat
  | [] => 0
  | (d, o) :: rest =>
    (if iterSucceeds s d o then 1 else 0) + countSuccesses (iter s d o).1 rest

/-- The number of iterations of a run that attempted the swap (entered the
non-cap branch and invoked `swapOnce`), read off the event traces. -/
def attemptCount (s : ProgState) : List (UtcDate × Oracle) → Nat
  | [] => 0
  | (d, o) :: rest =>
    (if (iter s d o).2.any Event.isAttemptMark then 1 else 0) +
      attemptCount (iter s d o).1 rest

/-- Lines 25-28 and the construction of the module-level constants (lines
30-35, 94-95): when any of the five required variables is falsy the process
prints `Missing required env vars.` and exits with code 1 before any network
activity; otherwise the program state is built, with `tradesToday = 0` and
`lastDay` the UTC day of month at startup. -/
def initProgram (e : Env) (startDate : UtcDate) : Except (Nat × String) ProgState :=
  if falsy e.RPC_URL || falsy e.PRIVATE_KEY_B58 || falsy e.TOKEN_MINT ||
      falsy e.QUOTE_MINT || falsy e.SIDE then
    Except.error (1, "Missing required env vars.")
  else
    Except.ok
      { rpcUrl := e.RPC_URL.getD ""
        privateKeyB58 := e.PRIVATE_KEY_B58.getD ""
        tokenMint := e.TOKEN_MINT.getD ""
        quoteMint := e.QUOTE_MINT.getD ""
        side := e.SIDE.getD ""
        amountInBaseUnits := e.AMOUNT_IN_BASE_UNITS
        maxSlippageBps := e.MAX_SLIPPAGE_BPS
        dailyBudget := natOfEnv e.DAILY_BUDGET_TRADES 100
        intervalSeconds := natOfEnv e.INTERVAL_SECONDS 1200
        discordWebhookUrl := e.DISCORD_WEBHOOK_URL
        tradesToday := 0
        lastDay := getUTCDate startDate }

/-! Concrete sample inputs used to evaluate the model on closed instances. -/

/-- A well-formed concrete configuration: selling 1000 base units of TOK for
USDC with the default cap 100, default interval 1200 s, started on day 15. -/
def sampleState : ProgState :=
  { rpcUrl := "https://rpc.example"
    privateKeyB58 := "5Kk"
    tokenMint := "TOK"
    quoteMint := "USDC"
    side := "sell"
    amountInBaseUnits := some "1000"
    maxSlippageBps := none
    dailyBudget := 100
    intervalSeconds := 1200
    discordWebhookUrl := none
    tradesToday := 0
    lastDay := 15 }

/-- The sample configuration with the daily counter already at the cap. -/
def cappedState : ProgState := { sampleState with tradesToday := 100 }

/-- The sample configuration with AMOUNT_IN_BASE_UNITS unset. -/
def badAmountState : ProgState := { sampleState with amountInBaseUnits := none }

/-- The sample configuration with an unrecognized SIDE value. -/
def buyState : ProgState := { sampleState with side := "BUY" }

/-- 2024-01-15 UTC. -/
def jan15 : UtcDate := ⟨2024, 1, 15⟩

/-- 2024-02-15 UTC: a different calendar day with the same day of month. -/
def feb15 : UtcDate := ⟨2024, 2, 15⟩

/-- External-call outcomes where every step of the chain succeeds. -/
def okOracle : Oracle :=
  { quoteOk := true
    quoteStatusText := "OK"
    quoteRoute := some "route0"
    swapBuildOk := true
    swapStatusText := "OK"
    deserializeResult := Except.ok ()
    sendResult := Except.ok "SIG111"
    confirmResult := Except.ok () }

/-- External-call outcomes where the quote request fails with HTTP 503. -/
def failOracle : Oracle :=
  { quoteOk := false
    quoteStatusText := "Service Unavailable"
    quoteRoute := none
    swapBuildOk := true
    swapStatusText := "OK"
    deserializeResult := Except.ok ()
    sendResult := Except.ok "SIG111"
    confirmResult := Except.ok () }

/-- A concrete environment with RPC_URL unset (and everything else set). -/
def missingEnv : Env :=
  { RPC_URL := none
    PRIVATE_KEY_B58 := some "5Kk"
    TOKEN_MINT := some "TOK"
    QUOTE_MINT := some "USDC"
    SIDE := some "sell"
    AMOUNT_IN_BASE_UNITS := some "1000"
    MAX_SLIPPAGE_BPS := none
    INTERVAL_SECONDS := none
    DAILY_BUDGET_TRADES := none
    DISCORD_WEBHOOK_URL := none }


/-! Basic facts about the day-change reset: it always records the current day
of month, and it touches nothing besides the two counters. -/

@[simp] lemma dayReset_lastDay (s : ProgState) (d : UtcDate) :
    (dayReset s d).lastDay = getUTCDate d := by
  unfold dayReset
  split
  · rfl
  · omega

@[simp] lemma dayReset_dailyBudget (s : ProgState) (d : UtcDate) :
    (dayReset s d).dailyBudget = s.dailyBudget := by
  unfold dayReset; split <;> rfl

@[simp] lemma dayReset_intervalSeconds (s : ProgState) (d : UtcDate) :
    (dayReset s d).intervalSeconds = s.intervalSeconds := by
  unfold dayReset; split <;> rfl

@[simp] lemma dayReset_amountInBaseUnits (s : ProgState) (d : UtcDate) :
    (dayReset s d).amountInBaseUnits = s.amountInBaseUnits := by
  unfold dayReset; split <;> rfl

@[simp] lemma dayReset_side (s : ProgState) (d : UtcDate) :
    (dayReset s d).side = s.side := by
  unfold dayReset; split <;> rfl

lemma dayReset_tradesToday (s : ProgState) (d : UtcDate) :
    (dayReset s d).tradesToday = if getUTCDate d ≠ s.lastDay then 0 else s.tradesToday := by
  unfold dayReset; split <;> simp_all

lemma dayReset_of_same_day (s : ProgState) (d : UtcDate) (h : s.lastDay = getUTCDate d) :
    dayReset s d = s := by
  unfold dayReset
  rw [if_neg]
  omega

/-- The exhaustive case analysis of `swapOnce`: it either throws on the amount
check before any external call, or the amount is a positive integer and the
run stops at the first failing step of the chain, with the trace being the
corresponding prefix of the full call chain. -/
lemma swapOnce_cases (s : ProgState) (o : Oracle) :
    swapOnce s o = (Except.error amountErrorMsg, ([] : List Event)) ∨
    ∃ a, jsNumber s.amountInBaseUnits = some a ∧ 0 < a ∧
      ((∃ e, swapOnce s o = (Except.error e, (fullChain s a).take 1)) ∨
       (o.quoteOk = true ∧ (∃ rt, o.quoteRoute = some rt) ∧
         ((∃ e, swapOnce s o = (Except.error e, (fullChain s a).take 2)) ∨
          (o.swapBuildOk = true ∧ o.deserializeResult = Except.ok () ∧
            ((∃ e, swapOnce s o = (Except.error e, (fullChain s a).take 4)) ∨
             (∃ sig, o.sendResult = Except.ok sig ∧
               ((∃ e, o.confirmResult = Except.error e ∧
                  swapOnce s o = (Except.error e, fullChain s a)) ∨
                (o.confirmResult = Except.ok () ∧
                  swapOnce s o =
                    (Except.ok ⟨sig, INPUT s, OUTPUT s, a⟩, fullChain s a))))))))) := by
  unfold swapOnce
  split
  · exact Or.inl rfl
  · rename_i amount hjs
    split
    · exact Or.inl rfl
    · rename_i hle
      refine Or.inr ⟨amount, hjs, by omega, ?_⟩
      split
      · exact Or.inl ⟨_, rfl⟩
      · rename_i hq
        split
        · exact Or.inl ⟨_, rfl⟩
        · rename_i route hroute
          refine Or.inr ⟨Bool.eq_true_of_not_eq_false hq, ⟨route, hroute⟩, ?_⟩
          split
          · exact Or.inl ⟨_, rfl⟩
          · rename_i hb
            split
            · exact Or.inl ⟨_, rfl⟩
            · rename_i u hd
              cases u
              refine Or.inr ⟨Bool.eq_true_of_not_eq_false hb, hd, ?_⟩
              split
              · exact Or.inl ⟨_, rfl⟩
              · rename_i sig hsend
                refine Or.inr ⟨sig, hsend, ?_⟩
                split
                · rename_i e hc
                  exact Or.inl ⟨e, hc, rfl⟩
                · rename_i u2 hc
                  cases u2
                  exact Or.inr ⟨hc, rfl⟩

/-- No event of the external call chain is a console event or a sleep. -/
lemma fullChain_flags (s : ProgState) (a : Int) :
    ∀ ev ∈ fullChain s a,
      Event.isAttemptMark ev = false ∧ Event.isSleep ev = false ∧ Event.isLogOk ev = false := by
  intro ev h
  simp only [fullChain, List.mem_cons, List.not_mem_nil, or_false] at h
  rcases h with rfl | rfl | rfl | rfl | rfl <;> exact ⟨rfl, rfl, rfl⟩

/-- The trace of a `swapOnce` call contains only external-call events: no
console marks and no sleeps. -/
lemma swapOnce_trace_flags (s : ProgState) (o : Oracle) :
    ∀ ev ∈ (swapOnce s o).2,
      Event.isAttemptMark ev = false ∧ Event.isSleep ev = false ∧ Event.isLogOk ev = false := by
  intro ev hev
  rcases swapOnce_cases s o with h | ⟨a, _, _, hcase⟩
  · rw [h] at hev
    simp at hev
  · have hmem : ev ∈ fullChain s a := by
      rcases hcase with ⟨e, h⟩ | ⟨_, _, hcase2⟩
      · rw [h] at hev
        exact List.take_subset _ _ hev
      · rcases hcase2 with ⟨e, h⟩ | ⟨_, _, hcase3⟩
        · rw [h] at hev
          exact List.take_subset _ _ hev
        · rcases hcase3 with ⟨e, h⟩ | ⟨sig, _, hcase4⟩
          · rw [h] at hev
            exact List.take_subset _ _ hev
          · rcases hcase4 with ⟨e, _, h⟩ | ⟨_, h⟩ <;> rw [h] at hev <;> exact hev
    exact fullChain_flags s a ev hmem

/-! Branch equations for one loop iteration. -/

lemma iterBody_cap (s1 : ProgState) (o : Oracle) (h : s1.tradesToday ≥ s1.dailyBudget) :
    iterBody s1 o =
      (s1, [Event.notify limitMsg, Event.sleepMs (s1.intervalSeconds * 1000)]) := by
  unfold iterBody
  rw [if_pos h]

lemma iterBody_ok (s1 : ProgState) (o : Oracle) (r : SwapResult) (tr : List Event)
    (h : ¬ s1.tradesToday ≥ s1.dailyBudget) (hs : swapOnce s1 o = (Except.ok r, tr)) :
    iterBody s1 o =
      ({ s1 with tradesToday := s1.tradesToday + 1 },
       tr ++ [Event.notify (successMsg s1 r), Event.logOk r.sig,
              Event.sleepMs (s1.intervalSeconds * 1000)]) := by
  unfold iterBody
  rw [if_neg h, hs]

lemma iterBody_err (s1 : ProgState) (o : Oracle) (e : String) (tr : List Event)
    (h : ¬ s1.tradesToday ≥ s1.dailyBudget) (hs : swapOnce s1 o = (Except.error e, tr)) :
    iterBody s1 o =
      (s1, tr ++ [Event.logError e, Event.notify (errorMsg e),
                  Event.sleepMs (s1.intervalSeconds * 1000)]) := by
  unfold iterBody
  rw [if_neg h, hs]

/-- The exhaustive case analysis of one loop iteration: cap branch, successful
swap branch with the counter increment and the success log, or caught-error
branch; each with its exact event trace. -/
lemma iter_cases (s : ProgState) (d : UtcDate) (o : Oracle) :
    ((dayReset s d).tradesToday ≥ s.dailyBudget ∧
      iter s d o = (dayReset s d,
        [Event.notify limitMsg, Event.sleepMs (s.intervalSeconds * 1000)])) ∨
    ((dayReset s d).tradesToday < s.dailyBudget ∧
      ((∃ r tr, swapOnce (dayReset s d) o = (Except.ok r, tr) ∧
         iter s d o = ({ dayReset s d with tradesToday := (dayReset s d).tradesToday + 1 },
           tr ++ [Event.notify (successMsg (dayReset s d) r), Event.logOk r.sig,
                  Event.sleepMs (s.intervalSeconds * 1000)])) ∨
       (∃ e tr, swapOnce (dayReset s d) o = (Except.error e, tr) ∧
         iter s d o = (dayReset s d,
           tr ++ [Event.logError e, Event.notify (errorMsg e),
                  Event.sleepMs (s.intervalSeconds * 1000)])))) := by
  by_cases hcap : (dayReset s d).tradesToday ≥ s.dailyBudget
  · left
    refine ⟨hcap, ?_⟩
    have := iterBody_cap (dayReset s d) o (by simpa using hcap)
    simpa [iter] using this
  · right
    refine ⟨by omega, ?_⟩
    rcases hs : swapOnce (dayReset s d) o with ⟨res, tr⟩
    rcases res with e | r
    · right
      refine ⟨e, tr, rfl, ?_⟩
      have := iterBody_err (dayReset s d) o e tr (by simpa using hcap) hs
      simpa [iter] using this
    · left
      refine ⟨r, tr, rfl, ?_⟩
      have := iterBody_ok (dayReset s d) o r tr (by simpa using hcap) hs
      simpa [iter] using this

/-- An iteration always ends with exactly one sleep of the fixed interval. -/
lemma iter_sleep_count (s : ProgState) (d : UtcDate) (o : Oracle) :
    (iter s d o).2.countP Event.isSleep = 1 := by
  rcases iter_cases s d o with ⟨_, h⟩ | ⟨_, ⟨r, tr, hs, h⟩ | ⟨e, tr, hs, h⟩⟩ <;> rw [h]
  · rfl
  all_goals
    have htr : tr.countP Event.isSleep = 0 := by
      rw [List.countP_eq_zero]
      intro ev hev
      have := swapOnce_trace_flags (dayReset s d) o ev (by rw [hs]; exact hev)
      simp [this.2.1]
    simp [List.countP_append, htr, List.countP_cons, Event.isSleep]

/-- An iteration trace ends with the fixed-interval sleep event. -/
lemma iter_ends_with_sleep (s : ProgState) (d : UtcDate) (o : Oracle) :
    ∃ pre, (iter s d o).2 = pre ++ [Event.sleepMs (s.intervalSeconds * 1000)] := by
  rcases iter_cases s d o with ⟨_, h⟩ | ⟨_, ⟨r, tr, hs, h⟩ | ⟨e, tr, hs, h⟩⟩ <;> rw [h]
  · exact ⟨[Event.notify limitMsg], rfl⟩
  · exact ⟨tr ++ [Event.notify (successMsg (dayReset s d) r), Event.logOk r.sig], by simp⟩
  · exact ⟨tr ++ [Event.logError e, Event.notify (errorMsg e)], by simp⟩

/-- An iteration logs `Swap ok` exactly when the cap was not hit and the swap
chain succeeded. -/
lemma iterSucceeds_iff (s : ProgState) (d : UtcDate) (o : Oracle) :
    iterSucceeds s d o = true ↔
      (dayReset s d).tradesToday < s.dailyBudget ∧
        ∃ r tr, swapOnce (dayReset s d) o = (Except.ok r, tr) := by
  unfold iterSucceeds
  rcases iter_cases s d o with ⟨hcap, h⟩ | ⟨hcap, ⟨r, tr, hs, h⟩ | ⟨e, tr, hs, h⟩⟩ <;> rw [h]
  · constructor
    · intro hflag
      exfalso
      simp [Event.isLogOk] at hflag
    · intro hc
      exact absurd hc.1 (by omega)
  · constructor
    · intro _
      exact ⟨hcap, r, tr, hs⟩
    · intro _
      simp [Event.isLogOk]
  · have htr0 : tr.any Event.isLogOk = false := by
      rw [List.any_eq_false]
      intro ev hev
      have := swapOnce_trace_flags (dayReset s d) o ev (by rw [hs]; exact hev)
      simp [this.2.2]
    constructor
    · intro hflag
      exfalso
      simp only [List.any_append, List.any_cons, List.any_nil] at hflag
      simp [htr0, Event.isLogOk] at hflag
    · rintro ⟨_, r2, tr2, hs2⟩
      rw [hs] at hs2
      exact absurd hs2 (by simp)

/-- The counter after an iteration: the post-reset value, plus one exactly on
a logged successful swap. -/
lemma iter_tradesToday (s : ProgState) (d : UtcDate) (o : Oracle) :
    (iter s d o).1.tradesToday =
      (dayReset s d).tradesToday + (if iterSucceeds s d o then 1 else 0) := by
  rcases iter_cases s d o with ⟨hcap, h⟩ | ⟨hcap, ⟨r, tr, hs, h⟩ | ⟨e, tr, hs, h⟩⟩
  · have hns : ¬ iterSucceeds s d o = true := fun hsucc =>
      absurd ((iterSucceeds_iff s d o).mp hsucc).1 (by omega)
    rw [if_neg hns, h]
    rfl
  · rw [if_pos ((iterSucceeds_iff s d o).mpr ⟨hcap, r, tr, hs⟩), h]
  · have hns : ¬ iterSucceeds s d o = true := by
      intro hsucc
      obtain ⟨_, r2, tr2, hs2⟩ := (iterSucceeds_iff s d o).mp hsucc
      rw [hs] at hs2
      exact absurd hs2 (by simp)
    rw [if_neg hns, h]
    rfl

/-- An iteration changes nothing but the two counters: the resulting state is
the input state with only `tradesToday` and `lastDay` updated. -/
lemma iter_frame (s : ProgState) (d : UtcDate) (o : Oracle) :
    (iter s d o).1 = { s with tradesToday := (iter s d o).1.tradesToday,
                              lastDay := (iter s d o).1.lastDay } := by
  rcases iter_cases s d o with ⟨hcap, h⟩ | ⟨hcap, ⟨r, tr, hs, h⟩ | ⟨e, tr, hs, h⟩⟩ <;>
    rw [h] <;> cases s <;> unfold dayReset <;> simp only [getUTCDate] <;> split <;> rfl

@[simp] lemma iter_lastDay (s : ProgState) (d : UtcDate) (o : Oracle) :
    (iter s d o).1.lastDay = getUTCDate d := by
  rcases iter_cases s d o with ⟨hcap, h⟩ | ⟨hcap, ⟨r, tr, hs, h⟩ | ⟨e, tr, hs, h⟩⟩ <;>
    rw [h] <;> simp

@[simp] lemma iter_dailyBudget (s : ProgState) (d : UtcDate) (o : Oracle) :
    (iter s d o).1.dailyBudget = s.dailyBudget := by
  conv_lhs => rw [iter_frame]

@[simp] lemma iter_amountInBaseUnits (s : ProgState) (d : UtcDate) (o : Oracle) :
    (iter s d o).1.amountInBaseUnits = s.amountInBaseUnits := by
  conv_lhs => rw [iter_frame]

@[simp] lemma iter_intervalSeconds (s : ProgState) (d : UtcDate) (o : Oracle) :
    (iter s d o).1.intervalSeconds = s.intervalSeconds := by
  conv_lhs => rw [iter_frame]

/-- A run of the loop performs exactly one sleep per iteration: the loop never
terminates early, whatever each iteration did. -/
lemma runTrace_sleeps (s : ProgState) (l : List (UtcDate × Oracle)) :
    (runTrace s l).countP Event.isSleep = l.length := by
  induction l generalizing s with
  | nil => rfl
  | cons hd rest ih =>
    obtain ⟨d, o⟩ := hd
    show ((iter s d o).2 ++ runTrace (iter s d o).1 rest).countP Event.isSleep = rest.length + 1
    rw [List.countP_append, iter_sleep_count, ih]
    omega

/-- Within a fixed recorded day, the count of successful swaps in a run is
bounded by the remaining budget. -/
lemma countSuccesses_le_sub (d : UtcDate) (l : List (UtcDate × Oracle)) :
    ∀ s : ProgState, (∀ x ∈ l, x.1 = d) → s.lastDay = getUTCDate d →
      countSuccesses s l ≤ s.dailyBudget - s.tradesToday := by
  induction l with
  | nil =>
    intro s _ _
    exact Nat.zero_le _
  | cons hd rest ih =>
    intro s hl hday
    obtain ⟨d0, o⟩ := hd
    have hd0 : d = d0 := (hl _ (List.mem_cons_self _ _)).symm
    subst hd0
    have hreset : dayReset s d = s := dayReset_of_same_day s d hday
    have hrest : ∀ x ∈ rest, x.1 = d := fun x hx => hl x (List.mem_cons_of_mem _ hx)
    show (if iterSucceeds s d o then 1 else 0) + countSuccesses (iter s d o).1 rest ≤
      s.dailyBudget - s.tradesToday
    have hbudget : (iter s d o).1.dailyBudget = s.dailyBudget := iter_dailyBudget s d o
    have hlast : (iter s d o).1.lastDay = getUTCDate d := iter_lastDay s d o
    have htr := iter_tradesToday s d o
    rw [hreset] at htr
    have hrec := ih (iter s d o).1 hrest hlast
    rw [hbudget, htr] at hrec
    by_cases hsucc : iterSucceeds s d o = true
    · have hlt : s.tradesToday < s.dailyBudget := by
        have := ((iterSucceeds_iff s d o).mp hsucc).1
        rw [hreset] at this
        exact this
      rw [if_pos hsucc]
      rw [if_pos hsucc] at hrec
      omega
    · rw [if_neg hsucc]
      rw [if_neg hsucc] at hrec
      omega

/-- Over any run whose iterations all observe the same date, at most
`dailyBudget` swaps succeed, from any starting state. -/
lemma countSuccesses_le_budget (s : ProgState) (d : UtcDate) (l : List (UtcDate × Oracle))
    (hl : ∀ x ∈ l, x.1 = d) : countSuccesses s l ≤ s.dailyBudget := by
  cases l with
  | nil => exact Nat.zero_le _
  | cons hd rest =>
    obtain ⟨d0, o⟩ := hd
    have hd0 : d = d0 := (hl _ (List.mem_cons_self _ _)).symm
    subst hd0
    have hrest : ∀ x ∈ rest, x.1 = d := fun x hx => hl x (List.mem_cons_of_mem _ hx)
    show (if iterSucceeds s d o then 1 else 0) + countSuccesses (iter s d o).1 rest ≤
      s.dailyBudget
    have hrec := countSuccesses_le_sub d rest (iter s d o).1 hrest (iter_lastDay s d o)
    rw [iter_dailyBudget] at hrec
    have htr := iter_tradesToday s d o
    by_cases hsucc : iterSucceeds s d o = true
    · have hlt : (dayReset s d).tradesToday < s.dailyBudget :=
        ((iterSucceeds_iff s d o).mp hsucc).1
      rw [if_pos hsucc]
      rw [if_pos hsucc] at htr
      omega
    · rw [if_neg hsucc]
      rw [if_neg hsucc] at htr
      omega

/-- Each iteration attempts the swap at most once. -/
lemma attemptCount_le_length (s : ProgState) (l : List (UtcDate × Oracle)) :
    attemptCount s l ≤ l.length := by
  induction l generalizing s with
  | nil => exact Nat.le_refl 0
  | cons hd rest ih =>
    obtain ⟨d, o⟩ := hd
    show (if (iter s d o).2.any Event.isAttemptMark then 1 else 0) +
        attemptCount (iter s d o).1 rest ≤ rest.length + 1
    have := ih (iter s d o).1
    split <;> omega

/-- When `Number(AMOUNT_IN_BASE_UNITS)` is NaN or not strictly positive,
`swapOnce` throws its amount error before performing any external call. -/
lemma swapOnce_bad_amount (s : ProgState) (o : Oracle)
    (hbad : ∀ a : Int, jsNumber s.amountInBaseUnits = some a → a ≤ 0) :
    swapOnce s o = (Except.error amountErrorMsg, []) := by
  unfold swapOnce
  split
  · rfl
  · rename_i amount hjs
    rw [if_pos (hbad amount hjs)]

/-- When the amount is invalid, no iteration of any run ever succeeds. -/
lemma countSuccesses_zero_of_bad_amount (l : List (UtcDate × Oracle)) :
    ∀ s : ProgState, (∀ a : Int, jsNumber s.amountInBaseUnits = some a → a ≤ 0) →
      countSuccesses s l = 0 := by
  induction l with
  | nil =>
    intro s _
    rfl
  | cons hd rest ih =>
    intro s hbad
    obtain ⟨d, o⟩ := hd
    have hbad1 : ∀ a : Int, jsNumber (dayReset s d).amountInBaseUnits = some a → a ≤ 0 := by
      rw [dayReset_amountInBaseUnits]
      exact hbad
    have hns : ¬ iterSucceeds s d o = true := by
      intro hsucc
      obtain ⟨_, r2, tr2, hs2⟩ := (iterSucceeds_iff s d o).mp hsucc
      rw [swapOnce_bad_amount (dayReset s d) o hbad1] at hs2
      exact absurd hs2 (by simp)
    have hbad2 : ∀ a : Int, jsNumber (iter s d o).1.amountInBaseUnits = some a → a ≤ 0 := by
      rw [iter_amountInBaseUnits]
      exact hbad
    show (if iterSucceeds s d o then 1 else 0) + countSuccesses (iter s d o).1 rest = 0
    rw [if_neg hns, ih (iter s d o).1 hbad2]

/-- A failing iteration on the sample state leaves the state unchanged and
logs the caught quote error. -/
lemma iter_fail_step :
    iter sampleState jan15 failOracle =
      (sampleState,
       [Event.quoteReq "TOK" "USDC" 1000 "50",
        Event.logError "Quote error: Service Unavailable",
        Event.notify (errorMsg "Quote error: Service Unavailable"),
        Event.sleepMs 1200000]) := by
  rfl

/-- A run of `n` failing iterations attempts the swap `n` times: nothing in
the loop bounds the number of retries of a failing swap. -/
lemma attemptCount_replicate (n : Nat) :
    attemptCount sampleState (List.replicate n (jan15, failOracle)) = n := by
  induction n with
  | zero => rfl
  | succ k ih =>
    rw [List.replicate_succ]
    show (if (iter sampleState jan15 failOracle).2.any Event.isAttemptMark then 1 else 0) +
        attemptCount (iter sampleState jan15 failOracle).1
          (List.replicate k (jan15, failOracle)) = k + 1
    rw [iter_fail_step]
    show 1 + attemptCount sampleState (List.replicate k (jan15, failOracle)) = k + 1
    rw [ih]
    omega

/-- Every event of a `swapOnce` trace belongs to the full call chain for the
parsed amount. -/
lemma swapOnce_trace_subset (s : ProgState) (o : Oracle) :
    ∃ a : Int, (swapOnce s o).2 ⊆ fullChain s a := by
  rcases swapOnce_cases s o with h | ⟨a, _, _, hcase⟩
  · refine ⟨0, ?_⟩
    rw [h]
    intro x hx
    exact absurd hx (List.not_mem_nil x)
  · refine ⟨a, ?_⟩
    rcases hcase with ⟨e, h⟩ | ⟨_, _, hcase2⟩
    · rw [h]
      exact List.take_subset _ _
    · rcases hcase2 with ⟨e, h⟩ | ⟨_, _, hcase3⟩
      · rw [h]
        exact List.take_subset _ _
      · rcases hcase3 with ⟨e, h⟩ | ⟨sig, _, hcase4⟩
        · rw [h]
          exact List.take_subset _ _
        · rcases hcase4 with ⟨e, _, h⟩ | ⟨_, h⟩ <;> rw [h] <;> exact fun x hx => hx

/-- A quote-request event occurring in the full chain carries exactly the
configured input and output mints. -/
lemma quoteReq_mem_fullChain (s : ProgState) (a a2 : Int) (im om sl : String)
    (h : Event.quoteReq im om a2 sl ∈ fullChain s a) :
    im = INPUT s ∧ om = OUTPUT s := by
  simp only [fullChain, List.mem_cons, List.not_mem_nil, or_false] at h
  rcases h with h | h | h | h | h
  · injection h with h1 h2 h3 h4
    exact ⟨h1, h2⟩
  all_goals simp at h

/-! Claim theorems. -/

/-- C1: the daily trade cap is enforced.  Over any run of iterations that all
observe one fixed UTC date, at most `Number(DAILY_BUDGET_TRADES ?? 100)` swaps
succeed, from any starting state; an iteration whose post-reset counter has
reached the cap performs no swap and only posts the limit notification before
sleeping; and the counter is incremented by exactly one on a successful swap
and is otherwise left at its post-reset value. -/
theorem daily_trade_cap :
    (∀ (s : ProgState) (d : UtcDate) (l : List (UtcDate × Oracle)),
        (∀ x ∈ l, x.1 = d) → countSuccesses s l ≤ s.dailyBudget) ∧
    (∀ (s : ProgState) (d : UtcDate) (o : Oracle),
        (dayReset s d).tradesToday ≥ s.dailyBudget →
          iter s d o = (dayReset s d,
            [Event.notify limitMsg, Event.sleepMs (s.intervalSeconds * 1000)])) ∧
    (∀ (s : ProgState) (d : UtcDate) (o : Oracle),
        (iter s d o).1.tradesToday =
          (dayReset s d).tradesToday + (if iterSucceeds s d o then 1 else 0)) := by
  refine ⟨countSuccesses_le_budget, fun s d o hcap => ?_, iter_tradesToday⟩
  rcases iter_cases s d o with ⟨_, h⟩ | ⟨hlt, _⟩
  · exact h
  · omega

/-- Witness for C1 at concrete inputs: a one-iteration same-day run stays
within the budget, and a capped state takes the limit-notification branch. -/
theorem daily_trade_cap_witness :
    countSuccesses sampleState [(jan15, okOracle)] ≤ sampleState.dailyBudget ∧
    iter cappedState jan15 failOracle =
      (dayReset cappedState jan15,
       [Event.notify limitMsg, Event.sleepMs (cappedState.intervalSeconds * 1000)]) :=
  ⟨daily_trade_cap.1 sampleState jan15 [(jan15, okOracle)]
      (by intro x hx; simp only [List.mem_singleton] at hx; rw [hx]),
   daily_trade_cap.2.1 cappedState jan15 failOracle (by decide)⟩

/-- C2: every error thrown inside an iteration is caught, logged to the
console and reported via a notification, and the loop always proceeds to the
fixed-interval sleep and to the next iteration: each iteration trace ends with
the sleep of `Number(INTERVAL_SECONDS ?? 1200)` seconds, and a run performs
exactly one sleep per iteration whatever each iteration did. -/
theorem errors_caught_and_loop_continues :
    (∀ (s : ProgState) (d : UtcDate) (o : Oracle) (e : String) (tr : List Event),
        (dayReset s d).tradesToday < s.dailyBudget →
        swapOnce (dayReset s d) o = (Except.error e, tr) →
          Event.logError e ∈ (iter s d o).2 ∧
          Event.notify (errorMsg e) ∈ (iter s d o).2) ∧
    (∀ (s : ProgState) (d : UtcDate) (o : Oracle),
        ∃ pre, (iter s d o).2 = pre ++ [Event.sleepMs (s.intervalSeconds * 1000)]) ∧
    (∀ (s : ProgState) (l : List (UtcDate × Oracle)),
        (runTrace s l).countP Event.isSleep = l.length) := by
  refine ⟨?_, iter_ends_with_sleep, runTrace_sleeps⟩
  intro s d o e tr hcap hs
  have h := iterBody_err (dayReset s d) o e tr
    (by simp only [dayReset_dailyBudget]; omega) hs
  have h2 : (iter s d o).2 = tr ++ [Event.logError e, Event.notify (errorMsg e),
      Event.sleepMs ((dayReset s d).intervalSeconds * 1000)] := by
    show (iterBody (dayReset s d) o).2 = _
    rw [h]
  rw [h2]
  constructor <;> simp

/-- Witness for C2 at a concrete failing iteration: the quote error is logged
and reported. -/
theorem errors_caught_and_loop_continues_witness :
    Event.logError "Quote error: Service Unavailable" ∈
        (iter sampleState jan15 failOracle).2 ∧
    Event.notify (errorMsg "Quote error: Service Unavailable") ∈
        (iter sampleState jan15 failOracle).2 :=
  errors_caught_and_loop_continues.1 sampleState jan15 failOracle
    "Quote error: Service Unavailable"
    [Event.quoteReq "TOK" "USDC" 1000 "50"] (by decide) rfl

/-- C3 (code bug): the source compares only `getUTCDate()`, the day of the
month, not the UTC calendar day.  A calendar-day change of exactly one month,
which keeps the day of month equal, performs no reset: after a successful
trade on 2024-01-15, the iteration on 2024-02-15 leaves the counter at 1
instead of resetting it to 0, and a further success raises it to 2. -/
theorem day_of_month_reset_bug :
    jan15 ≠ feb15 ∧
    (runLoop sampleState [(jan15, okOracle)]).tradesToday = 1 ∧
    dayReset (runLoop sampleState [(jan15, okOracle)]) feb15 =
      runLoop sampleState [(jan15, okOracle)] ∧
    (dayReset (runLoop sampleState [(jan15, okOracle)]) feb15).tradesToday = 1 ∧
    (runLoop sampleState [(jan15, okOracle), (feb15, okOracle)]).tradesToday = 2 :=
  ⟨by decide, rfl, rfl, rfl, rfl⟩

/-- C4: every successful pass of `swapOnce` performs the external call chain
exactly once in the order quote, build, sign, submit, confirm; any trace is a
prefix of that chain; each later step occurs only if every earlier step
succeeded; and the result record (signature, input mint, output mint, amount)
is returned only after a successful confirmation. -/
theorem swap_call_chain :
    (∀ (s : ProgState) (o : Oracle), ∃ a t, (swapOnce s o).2 ++ t = fullChain s a) ∧
    (∀ (s : ProgState) (o : Oracle), Event.swapReq ∈ (swapOnce s o).2 →
        o.quoteOk = true ∧ ∃ rt, o.quoteRoute = some rt) ∧
    (∀ (s : ProgState) (o : Oracle), Event.sendTx ∈ (swapOnce s o).2 →
        o.swapBuildOk = true ∧ o.deserializeResult = Except.ok ()) ∧
    (∀ (s : ProgState) (o : Oracle), Event.confirmTx ∈ (swapOnce s o).2 →
        ∃ sig, o.sendResult = Except.ok sig) ∧
    (∀ (s : ProgState) (o : Oracle) (r : SwapResult),
        (swapOnce s o).1 = Except.ok r →
          (swapOnce s o).2 = fullChain s r.amount ∧
          o.sendResult = Except.ok r.sig ∧
          o.confirmResult = Except.ok () ∧
          r.inMint = INPUT s ∧ r.outMint = OUTPUT s ∧
          jsNumber s.amountInBaseUnits = some r.amount ∧ 0 < r.amount) := by
  refine ⟨?_, ?_, ?_, ?_, ?_⟩
  · intro s o
    rcases swapOnce_cases s o with h | ⟨a, _, _, hcase⟩
    · exact ⟨0, fullChain s 0, by rw [h]; rfl⟩
    · refine ⟨a, ?_⟩
      rcases hcase with ⟨e, h⟩ | ⟨_, _, hcase2⟩
      · exact ⟨(fullChain s a).drop 1, by rw [h]; exact List.take_append_drop 1 _⟩
      · rcases hcase2 with ⟨e, h⟩ | ⟨_, _, hcase3⟩
        · exact ⟨(fullChain s a).drop 2, by rw [h]; exact List.take_append_drop 2 _⟩
        · rcases hcase3 with ⟨e, h⟩ | ⟨sig, _, hcase4⟩
          · exact ⟨(fullChain s a).drop 4, by rw [h]; exact List.take_append_drop 4 _⟩
          · rcases hcase4 with ⟨e, _, h⟩ | ⟨_, h⟩ <;>
              exact ⟨[], by rw [h]; exact List.append_nil _⟩
  · intro s o hmem
    rcases swapOnce_cases s o with h | ⟨a, _, _, hcase⟩
    · rw [h] at hmem
      simp at hmem
    · rcases hcase with ⟨e, h⟩ | ⟨hq, hrt, _⟩
      · rw [h] at hmem
        simp [fullChain] at hmem
      · exact ⟨hq, hrt⟩
  · intro s o hmem
    rcases swapOnce_cases s o with h | ⟨a, _, _, hcase⟩
    · rw [h] at hmem
      simp at hmem
    · rcases hcase with ⟨e, h⟩ | ⟨_, _, hcase2⟩
      · rw [h] at hmem
        simp [fullChain] at hmem
      · rcases hcase2 with ⟨e, h⟩ | ⟨hb, hd, _⟩
        · rw [h] at hmem
          simp [fullChain] at hmem
        · exact ⟨hb, hd⟩
  · intro s o hmem
    rcases swapOnce_cases s o with h | ⟨a, _, _, hcase⟩
    · rw [h] at hmem
      simp at hmem
    · rcases hcase with ⟨e, h⟩ | ⟨_, _, hcase2⟩
      · rw [h] at hmem
        simp [fullChain] at hmem
      · rcases hcase2 with ⟨e, h⟩ | ⟨_, _, hcase3⟩
        · rw [h] at hmem
          simp [fullChain] at hmem
        · rcases hcase3 with ⟨e, h⟩ | ⟨sig, hsend, _⟩
          · rw [h] at hmem
            simp [fullChain] at hmem
          · exact ⟨sig, hsend⟩
  · intro s o r hok
    rcases swapOnce_cases s o with h | ⟨a, hjs, hpos, hcase⟩
    · rw [h] at hok
      exact absurd hok (by simp)
    · rcases hcase with ⟨e, h⟩ | ⟨hq, hrt, hcase2⟩
      · rw [h] at hok
        exact absurd hok (by simp)
      · rcases hcase2 with ⟨e, h⟩ | ⟨hb, hd, hcase3⟩
        · rw [h] at hok
          exact absurd hok (by simp)
        · rcases hcase3 with ⟨e, h⟩ | ⟨sig, hsend, hcase4⟩
          · rw [h] at hok
            exact absurd hok (by simp)
          · rcases hcase4 with ⟨e, _, h⟩ | ⟨hcok, h⟩
            · rw [h] at hok
              exact absurd hok (by simp)
            · rw [h] at hok
              simp only [Except.ok.injEq] at hok
              subst hok
              exact ⟨by rw [h], hsend, hcok, rfl, rfl, hjs, hpos⟩

/-- Witness for C4 at a fully successful concrete pass: the trace is exactly
the full chain and the returned record carries the oracle signature and the
configured mints. -/
theorem swap_call_chain_witness :
    (swapOnce sampleState okOracle).2 = fullChain sampleState 1000 ∧
    okOracle.sendResult = Except.ok "SIG111" :=
  ⟨(swap_call_chain.2.2.2.2 sampleState okOracle
      ⟨"SIG111", "TOK", "USDC", 1000⟩ rfl).1,
   (swap_call_chain.2.2.2.2 sampleState okOracle
      ⟨"SIG111", "TOK", "USDC", 1000⟩ rfl).2.1⟩

/-- C5 counterexample: the number of retries of the swap operation is NOT
bounded.  For every candidate bound `B`, a run of `B + 1` iterations whose
quote request keeps failing attempts the swap `B + 1` times: on failure the
loop just sleeps the fixed interval and tries again, forever. -/
theorem retry_bounded_counterexample :
    ¬ ∃ B : Nat, ∀ l : List (UtcDate × Oracle), attemptCount sampleState l ≤ B := by
  rintro ⟨B, hB⟩
  have h := hB (List.replicate (B + 1) (jan15, failOracle))
  rw [attemptCount_replicate] at h
  omega

/-- C5 amended: the swap is attempted at most once per iteration and the
successful trades of a fixed-date run are bounded by the daily cap, but
failed attempts are retried forever at the fixed interval, so the total
number of retries is unbounded. -/
theorem retries_unbounded_trades_bounded :
    (∀ (s : ProgState) (l : List (UtcDate × Oracle)), attemptCount s l ≤ l.length) ∧
    (∀ (s : ProgState) (d : UtcDate) (l : List (UtcDate × Oracle)),
        (∀ x ∈ l, x.1 = d) → countSuccesses s l ≤ s.dailyBudget) ∧
    (∀ B : Nat,
        B < attemptCount sampleState (List.replicate (B + 1) (jan15, failOracle))) := by
  refine ⟨attemptCount_le_length, countSuccesses_le_budget, ?_⟩
  intro B
  rw [attemptCount_replicate]
  omega

/-- Witness for the amended C5 at concrete inputs. -/
theorem retries_unbounded_trades_bounded_witness :
    countSuccesses sampleState [(feb15, failOracle)] ≤ sampleState.dailyBudget :=
  retries_unbounded_trades_bounded.2.1 sampleState feb15 [(feb15, failOracle)]
    (by intro x hx; simp only [List.mem_singleton] at hx; rw [hx])

/-- C6: one loop iteration changes at most the two counters `tradesToday` and
`lastDay`: every configuration field of the program state is left unchanged,
and the resulting state is the input state with only the two counters
updated. -/
theorem iteration_frame :
    ∀ (s : ProgState) (d : UtcDate) (o : Oracle),
      (iter s d o).1.rpcUrl = s.rpcUrl ∧
      (iter s d o).1.privateKeyB58 = s.privateKeyB58 ∧
      (iter s d o).1.tokenMint = s.tokenMint ∧
      (iter s d o).1.quoteMint = s.quoteMint ∧
      (iter s d o).1.side = s.side ∧
      (iter s d o).1.amountInBaseUnits = s.amountInBaseUnits ∧
      (iter s d o).1.maxSlippageBps = s.maxSlippageBps ∧
      (iter s d o).1.dailyBudget = s.dailyBudget ∧
      (iter s d o).1.intervalSeconds = s.intervalSeconds ∧
      (iter s d o).1.discordWebhookUrl = s.discordWebhookUrl ∧
      (iter s d o).1 = { s with tradesToday := (iter s d o).1.tradesToday,
                                lastDay := (iter s d o).1.lastDay } := by
  intro s d o
  have h := iter_frame s d o
  refine ⟨?_, ?_, ?_, ?_, ?_, ?_, ?_, ?_, ?_, ?_, h⟩ <;> rw [h]

/-- C7: notification posting is best-effort: `discord` never propagates an
error to its caller (any failure of the webhook request is swallowed by the
empty catch), and when the webhook URL is unset it returns immediately
without performing any network request. -/
theorem discord_best_effort :
    ∀ (w : Option String) (f : Except String Unit),
      (∃ b : Bool, discord w f = Except.ok b) ∧
      (w = none → discord w f = Except.ok false) := by
  intro w f
  constructor
  · by_cases hw : falsy w = true
    · exact ⟨false, by unfold discord; rw [if_pos hw]⟩
    · rcases f with e | u <;>
        exact ⟨true, by unfold discord; rw [if_neg hw]⟩
  · intro hw
    subst hw
    rfl

/-- Witness for C7: with the webhook unset and the network down, `discord`
returns normally having made no request. -/
theorem discord_best_effort_witness :
    discord none (Except.error "network down") = Except.ok false :=
  (discord_best_effort none (Except.error "network down")).2 rfl

/-- C8: startup validates only the five required variables, printing an error
and exiting with code 1 when one is unset; AMOUNT_IN_BASE_UNITS is not
checked at startup, and when it is unset, non-numeric or not strictly
positive, `swapOnce` throws before any external call on every iteration while
the loop keeps sleeping and iterating forever, never trading. -/
theorem env_validation :
    (∀ (e : Env) (d0 : UtcDate),
        (e.RPC_URL = none ∨ e.PRIVATE_KEY_B58 = none ∨ e.TOKEN_MINT = none ∨
         e.QUOTE_MINT = none ∨ e.SIDE = none) →
        initProgram e d0 = Except.error (1, "Missing required env vars.")) ∧
    (∀ (e : Env) (d0 : UtcDate),
        falsy e.RPC_URL = false → falsy e.PRIVATE_KEY_B58 = false →
        falsy e.TOKEN_MINT = false → falsy e.QUOTE_MINT = false →
        falsy e.SIDE = false →
        ∃ s : ProgState, initProgram e d0 = Except.ok s ∧
          s.amountInBaseUnits = e.AMOUNT_IN_BASE_UNITS ∧ s.tradesToday = 0) ∧
    (∀ (s : ProgState) (o : Oracle),
        (∀ a : Int, jsNumber s.amountInBaseUnits = some a → a ≤ 0) →
        swapOnce s o = (Except.error amountErrorMsg, [])) ∧
    (∀ (s : ProgState) (l : List (UtcDate × Oracle)),
        (∀ a : Int, jsNumber s.amountInBaseUnits = some a → a ≤ 0) →
        countSuccesses s l = 0 ∧ (runTrace s l).countP Event.isSleep = l.length) := by
  refine ⟨?_, ?_, swapOnce_bad_amount,
    fun s l h => ⟨countSuccesses_zero_of_bad_amount l s h, runTrace_sleeps s l⟩⟩
  · intro e d0 hmiss
    unfold initProgram
    rcases hmiss with h | h | h | h | h <;> rw [h] <;> simp [falsy]
  · intro e d0 h1 h2 h3 h4 h5
    unfold initProgram
    rw [h1, h2, h3, h4, h5]
    exact ⟨_, rfl, rfl, rfl⟩

/-- Witness for C8 at concrete inputs: a missing RPC_URL exits with code 1,
and an unset amount makes `swapOnce` throw with an empty trace while runs
never trade. -/
theorem env_validation_witness :
    initProgram missingEnv jan15 = Except.error (1, "Missing required env vars.") ∧
    swapOnce badAmountState failOracle = (Except.error amountErrorMsg, []) ∧
    countSuccesses badAmountState [(jan15, failOracle)] = 0 :=
  ⟨env_validation.1 missingEnv jan15 (Or.inl rfl),
   env_validation.2.2.1 badAmountState failOracle
     (fun a ha => by simp [badAmountState, sampleState, jsNumber] at ha),
   (env_validation.2.2.2 badAmountState [(jan15, failOracle)]
     (fun a ha => by simp [badAmountState, sampleState, jsNumber] at ha)).1⟩

/-- C9: the swap direction depends only on whether SIDE is exactly the string
`sell`: then the input mint is TOKEN_MINT and the output mint QUOTE_MINT, and
for every other SIDE value the input mint is QUOTE_MINT and the output mint
TOKEN_MINT; the quote request always carries exactly these mints. -/
theorem side_selects_mints :
    ∀ s : ProgState,
      (s.side = "sell" → INPUT s = s.tokenMint ∧ OUTPUT s = s.quoteMint) ∧
      (s.side ≠ "sell" → INPUT s = s.quoteMint ∧ OUTPUT s = s.tokenMint) ∧
      (∀ (o : Oracle) (im om : String) (a : Int) (sl : String),
          Event.quoteReq im om a sl ∈ (swapOnce s o).2 →
          im = INPUT s ∧ om = OUTPUT s) := by
  intro s
  refine ⟨fun h => ?_, fun h => ?_, ?_⟩
  · unfold INPUT OUTPUT
    rw [if_pos h, if_pos h]
    exact ⟨rfl, rfl⟩
  · unfold INPUT OUTPUT
    rw [if_neg h, if_neg h]
    exact ⟨rfl, rfl⟩
  · intro o im om a sl hmem
    obtain ⟨a2, hsub⟩ := swapOnce_trace_subset s o
    exact quoteReq_mem_fullChain s a2 a im om sl (hsub hmem)

/-- Witness for C9: `sell` trades TOK for USDC, and the unrecognized side
`BUY` silently trades USDC for TOK. -/
theorem side_selects_mints_witness :
    INPUT sampleState = sampleState.tokenMint ∧
    INPUT buyState = buyState.quoteMint ∧ OUTPUT buyState = buyState.tokenMint :=
  ⟨((side_selects_mints sampleState).1 rfl).1,
   ((side_selects_mints buyState).2.1 (by decide)).1,
   ((side_selects_mints buyState).2.1 (by decide)).2⟩

/-- C10: the counter update is atomic with respect to iteration failure:
when the iteration is below the cap, a throwing `swapOnce` leaves the state
at its post-reset value, and only a `swapOnce` that returned after
confirmation increments `tradesToday`, by exactly one. -/
theorem counter_increment_atomic :
    ∀ (s : ProgState) (d : UtcDate) (o : Oracle),
      (∀ (e : String) (tr : List Event),
        (dayReset s d).tradesToday < s.dailyBudget →
        swapOnce (dayReset s d) o = (Except.error e, tr) →
        (iter s d o).1 = dayReset s d) ∧
      (∀ (r : SwapResult) (tr : List Event),
        (dayReset s d).tradesToday < s.dailyBudget →
        swapOnce (dayReset s d) o = (Except.ok r, tr) →
        (iter s d o).1 =
          { dayReset s d with tradesToday := (dayReset s d).tradesToday + 1 }) := by
  intro s d o
  constructor
  · intro e tr hcap hs
    have h := iterBody_err (dayReset s d) o e tr
      (by simp only [dayReset_dailyBudget]; omega) hs
    show (iterBody (dayReset s d) o).1 = dayReset s d
    rw [h]
  · intro r tr hcap hs
    have h := iterBody_ok (dayReset s d) o r tr
      (by simp only [dayReset_dailyBudget]; omega) hs
    show (iterBody (dayReset s d) o).1 = _
    rw [h]

/-- Witness for C10 at concrete inputs: a failing iteration leaves the
counter unchanged and a successful one increments it by one. -/
theorem counter_increment_atomic_witness :
    (iter sampleState jan15 failOracle).1 = dayReset sampleState jan15 ∧
    (iter sampleState jan15 okOracle).1 =
      { dayReset sampleState jan15 with
          tradesToday := (dayReset sampleState jan15).tradesToday + 1 } :=
  ⟨(counter_increment_atomic sampleState jan15 failOracle).1
      "Quote error: Service Unavailable" [Event.quoteReq "TOK" "USDC" 1000 "50"]
      (by decide) rfl,
   (counter_increment_atomic sampleState jan15 okOracle).2
      ⟨"SIG111", "TOK", "USDC", 1000⟩ (fullChain sampleState 1000)
      (by decide) rfl⟩

end Executor
